import Mathlib

/-!
Shallow embedding of the QA session frontend layer of the maelstrom
repository: `src/frontend/src/lib/api.ts` (request construction and
response mapping for the QA v1 endpoints) and
`src/frontend/src/hooks/useQASession.ts` (the session hook: message
dispatch, clarification-thread bookkeeping, execution-snapshot event
application, cancellation, retry).

JavaScript strings are modelled as Lean `String` (sequences of
characters), JS `number` as `Rat`, optional / possibly-`undefined`
fields as `Option`, and generic `Record<string, unknown>` payloads as
opaque association lists.  JS truthiness on strings (empty string is
falsy) is modelled explicitly.
-/

namespace Maelstrom

/-- JS truthiness of a possibly-undefined string: `undefined` and `""` are
falsy, every other string is truthy. -/
def truthyStr : Option String → Bool
  | none => false
  | some s => !s.isEmpty

/-- Model of the JS idiom `a || b` on strings: `a` when truthy, else `b`. -/
def jsOr (a b : String) : String :=
  if a.isEmpty then b else a

/-- Model of the JS idiom `x || d` where `x : string | undefined`. -/
def jsOrOpt (x : Option String) (d : String) : String :=
  match x with
  | some s => jsOr s d
  | none => d

/-- The whitespace characters recognised by the JS `\s` class and
`String.prototype.trim`, restricted to the ASCII range used by the model. -/
def isJsWs (c : Char) : Bool :=
  c = ' ' || c = '\t' || c = '\n' || c = '\r' || c = '\x0b' || c = '\x0c'

/-- Embedding of `content.replace(/\n/g, " ")`. -/
def replaceNewlines (s : List Char) : List Char :=
  s.map (fun c => if c = '\n' then ' ' else c)

/-- Helper for `collapseWs`: the flag records whether the previous character
belonged to a whitespace run whose single replacement space was already
emitted. -/
def collapseWsAux : Bool → List Char → List Char
  | _, [] => []
  | inRun, c :: rest =>
    if isJsWs c then
      if inRun then collapseWsAux true rest
      else ' ' :: collapseWsAux true rest
    else c :: collapseWsAux false rest

/-- Embedding of `.replace(/\s+/g, " ")`: every maximal run of whitespace
characters becomes a single space. -/
def collapseWs (s : List Char) : List Char :=
  collapseWsAux false s

/-- Embedding of `String.prototype.trim`: strip leading and trailing
whitespace. -/
def trimWs (s : List Char) : List Char :=
  ((s.dropWhile isJsWs).reverse.dropWhile isJsWs).reverse

/-- Embedding of `content.trim()` on the `String` model. -/
def jsTrim (s : String) : String :=
  ⟨trimWs s.data⟩

/-- The cleaned content computed by `generateTitle` in `useQASession.ts`:
`content.replace(/\n/g, " ").replace(/\s+/g, " ").trim()`. -/
def cleanContent (content : String) : List Char :=
  trimWs (collapseWs (replaceNewlines content.data))

/-- Embedding of `generateTitle` (useQASession.ts lines 313-316):
`clean.length > 20 ? clean.slice(0, 20) + "..." : clean || "新会话"`. -/
def generateTitle (content : String) : String :=
  let clean := cleanContent content
  if clean.length > 20 then ⟨clean.take 20 ++ "...".data⟩
  else if clean.isEmpty then "新会话" else ⟨clean⟩

example : generateTitle "  hello \n world  " = "hello world" := by decide

example : generateTitle "" = "新会话" := by decide

example : generateTitle "abcdefghijklmnopqrstuvwxyz" = "abcdefghijklmnopqrst..." := by
  decide

/-! ## Data model of `api.ts` -/

/-- Opaque model of a JS `Record<string, unknown>` payload that the frontend
only passes through. -/
abbrev JsonObj := List (String × String)

/-- Interface `QACitation` of `api.ts`. -/
structure QACitation where
  chunkId : String
  text : String
  score : Rat
  deriving Repr, DecidableEq

/-- Interface `QAContextBlock` of `api.ts` (the `metadata` field is never
set by the mapping code and is omitted). -/
structure QAContextBlock where
  type : String
  data : JsonObj
  deriving Repr, DecidableEq

/-- Interface `QAExecutionWorkerDescriptor` and `QAExecutionProblem` are
only passed through; both are modelled opaquely. -/
abbrev QAExecutionProblem := JsonObj

/-- The `manager` component of `QAExecutionSnapshot`. -/
structure ManagerState where
  query : Option String
  stage1 : Option JsonObj
  problems : Option (List QAExecutionProblem)
  deriving Repr, DecidableEq

/-- The `plan` component of `QAExecutionSnapshot`; the typed keys of the
`plan` record in `api.ts`. -/
structure PlanState where
  planId : Option String
  metadata : Option JsonObj
  nodes : Option (List JsonObj)
  workers : Option (List JsonObj)
  deriving Repr, DecidableEq

/-- Interface `QAExecutionRun` of `api.ts`. -/
structure QAExecutionRun where
  sub_problem_id : Option String
  node_id : Option String
  capability : Option String
  agent : Option String
  role : Option String
  success : Option Bool
  error : Option String
  output : Option JsonObj
  status : Option String
  attempt : Option Rat
  latency_ms : Option Rat
  identity_prompt : Option String
  task_prompt : Option String
  progress : Option Rat
  artifact_preview : Option String
  deriving Repr, DecidableEq

/-- The `summary` component of `QAExecutionSnapshot`. -/
structure SummaryState where
  fallbackUsed : Option Bool
  finalStatus : Option String
  confidence : Option Rat
  deriving Repr, DecidableEq

/-- Interface `QAExecutionSnapshot` of `api.ts`. -/
structure QAExecutionSnapshot where
  traceId : String
  manager : ManagerState
  plan : PlanState
  workers : List QAExecutionRun
  summary : SummaryState
  deriving Repr, DecidableEq

/-- Interface `QAExecutionEvent` of `api.ts`.  The `plan` payload is typed
by the keys the snapshot's plan record carries; `stage1` arrives through
the index signature. -/
structure QAExecutionEvent where
  type : String
  trace_id : Option String
  traceId : Option String
  node_id : Option String
  worker : Option String
  role : Option String
  capability : Option String
  identity_prompt : Option String
  task_prompt : Option String
  progress : Option Rat
  error : Option String
  artifact_preview : Option String
  plan : Option PlanState
  problems : Option (List QAExecutionProblem)
  stage1 : Option JsonObj
  deriving Repr, DecidableEq

/-- Interface `QAOptions` of `api.ts`. -/
structure QAOptions where
  timeout_sec : Option Rat
  max_context_chars : Option Rat
  deriving Repr, DecidableEq

/-- The `clarification` sub-object of `QAV1RawResponse`. -/
structure RawClarification where
  thread_id : Option String
  question : Option String
  options : Option (List String)
  deriving Repr, DecidableEq

/-- A raw citation element of `QAV1RawResponse.citations`. -/
structure RawCitation where
  source : Option String
  text : Option String
  score : Option Rat
  deriving Repr, DecidableEq

/-- Interface `QAV1RawResponse` of `api.ts`: the backend wire format. -/
structure QAV1RawResponse where
  status : String
  session_id : String
  turn_id : String
  trace_id : String
  answer : Option String
  confidence : Option Rat
  citations : Option (List RawCitation)
  intent_tag : Option String
  stage1_result : Option JsonObj
  stage2_result : Option JsonObj
  execution : Option QAExecutionSnapshot
  clarification : Option RawClarification
  deriving Repr, DecidableEq

/-- The `clarification` sub-object of the mapped `QAResponse`. -/
structure Clarification where
  threadId : String
  question : String
  options : List String
  deriving Repr, DecidableEq

/-- Interface `QAResponse` of `api.ts`: the mapped frontend response. -/
structure QAResponse where
  status : String
  answer : String
  citations : List QACitation
  confidence : Rat
  route : String
  traceId : String
  contextBlocks : List QAContextBlock
  execution : Option QAExecutionSnapshot
  sessionId : Option String
  turnId : Option String
  clarification : Option Clarification
  deriving Repr, DecidableEq

/-! ## Response mapping (`mapQAV1RawResponse`, api.ts lines 452-498) -/

/-- Mapping of one raw citation:
`{ chunkId: item.source || "unknown", text: item.text || "", score: Number(item.score || 0) }`. -/
def mapCitation (item : RawCitation) : QACitation :=
  { chunkId := jsOrOpt item.source "unknown"
    text := jsOrOpt item.text ""
    score := item.score.getD 0 }

/-- Embedding of `mapQAV1RawResponse`. -/
def mapQAV1RawResponse (raw : QAV1RawResponse) : QAResponse :=
  let status := if raw.status = "clarification_pending" then "clarification_pending"
                else "completed"
  let route := jsOrOpt raw.intent_tag
    (if raw.status = "clarification_pending" then "clarification_pending" else "DOC_QA")
  let contextBlocks : List QAContextBlock :=
    [⟨"stage1", raw.stage1_result.getD []⟩, ⟨"stage2", raw.stage2_result.getD []⟩]
  let citations := (raw.citations.getD []).map mapCitation
  let confidence := raw.confidence.getD (7 / 10)
  if raw.status = "clarification_pending" then
    let question := jsOrOpt (raw.clarification.bind (·.question)) "请补充更多信息后重试。"
    let options := (raw.clarification.bind (·.options)).getD []
    let threadId := jsOrOpt (raw.clarification.bind (·.thread_id)) ""
    { status, answer := question, citations, confidence, route
      traceId := raw.trace_id
      contextBlocks
      execution := raw.execution
      sessionId := some raw.session_id
      turnId := some raw.turn_id
      clarification :=
        if threadId.isEmpty then none else some ⟨threadId, question, options⟩ }
  else
    { status, answer := jsOrOpt raw.answer "", citations, confidence, route
      traceId := raw.trace_id
      contextBlocks
      execution := raw.execution
      sessionId := some raw.session_id
      turnId := some raw.turn_id
      clarification := none }

/-! ## Request construction (`askQuestion`, `answerClarification`,
`retryExecution` in api.ts) -/

/-- The parameter object accepted by `askQuestion`. -/
structure AskParams where
  query : String
  docId : Option String
  sessionId : Option String
  traceId : Option String
  options : Option QAOptions
  deriving Repr, DecidableEq

/-- The JSON body posted to `/api/qa/v1/query`. -/
structure AskRequestBody where
  query : String
  docScope : List String
  sessionId : Option String
  traceId : Option String
  options : Option QAOptions
  deriving Repr, DecidableEq

/-- Embedding of the request body built by `askQuestion` (api.ts lines
513-519): `docScope: params.docId ? [params.docId] : []`,
`sessionId: params.sessionId || null`, `traceId: params.traceId || null`,
`options: params.options || undefined`. -/
def askQuestionRequest (p : AskParams) : AskRequestBody :=
  { query := p.query
    docScope :=
      match p.docId with
      | some d => if d.isEmpty then [] else [d]
      | none => []
    sessionId :=
      match p.sessionId with
      | some s => if s.isEmpty then none else some s
      | none => none
    traceId :=
      match p.traceId with
      | some t => if t.isEmpty then none else some t
      | none => none
    options := p.options }

/-- The JSON body (plus URL path parameter) of the clarification call
built by `answerClarification` (api.ts lines 540-548). -/
structure ClarifyRequest where
  threadId : String
  sessionId : String
  answer : String
  deriving Repr, DecidableEq

/-- A JS `Error` value as observed by the catch blocks: its `name` and
possibly-undefined `message`. -/
structure JsError where
  name : String
  message : Option String
  deriving Repr, DecidableEq

/-- Outcome of one `fetch` round-trip as seen by the api.ts wrappers. -/
inductive FetchOutcome where
  | ok (raw : QAV1RawResponse)
  | httpError (body : String)
  | thrown (err : JsError)
  deriving Repr, DecidableEq

/-- Embedding of `askQuestion`: on an ok response the raw payload is mapped
through `mapQAV1RawResponse`; an HTTP error becomes a thrown `Error` whose
message is the prefixed body text; a fetch-level exception (e.g. the
`AbortError` of an aborted signal) propagates. -/
def askQuestion (p : AskParams) (outcome : FetchOutcome) :
    AskRequestBody × Except JsError QAResponse :=
  (askQuestionRequest p,
    match outcome with
    | .ok raw => .ok (mapQAV1RawResponse raw)
    | .httpError body => .error ⟨"Error", some ("QA failed: " ++ body)⟩
    | .thrown err => .error err)

/-- Embedding of `answerClarification`. -/
def answerClarification (threadId sessionId answer : String)
    (outcome : FetchOutcome) : ClarifyRequest × Except JsError QAResponse :=
  (⟨threadId, sessionId, answer⟩,
    match outcome with
    | .ok raw => .ok (mapQAV1RawResponse raw)
    | .httpError body => .error ⟨"Error", some ("QA clarification failed: " ++ body)⟩
    | .thrown err => .error err)

/-- Embedding of the `retryExecution` api wrapper: a POST to the retry
endpoint of the given trace with no body. -/
def retryExecutionApi (outcome : FetchOutcome) : Except JsError QAResponse :=
  match outcome with
  | .ok raw => .ok (mapQAV1RawResponse raw)
  | .httpError body => .error ⟨"Error", some ("QA retry API error: " ++ body)⟩
  | .thrown err => .error err

/-! ## Data model of `useQASession.ts` -/

/-- Interface `Session` of `components/qa` (dates modelled as abstract
ticks). -/
structure Session where
  id : String
  title : String
  createdAt : Nat
  updatedAt : Nat
  docId : Option String
  deriving Repr, DecidableEq

/-- A citation attached to a chat message: `{ text, source }`. -/
structure MsgCitation where
  text : String
  source : String
  deriving Repr, DecidableEq

/-- Interface `Message` of `components/qa`. -/
structure Message where
  id : String
  role : String
  content : String
  citations : Option (List MsgCitation)
  timestamp : Nat
  isStreaming : Option Bool
  execution : Option QAExecutionSnapshot
  deriving Repr, DecidableEq

/-- The mutable state of the `useQASession` hook that the claims concern:
the session list, current session id, message list, loading flag, the
per-session pending-clarification map, the per-trace execution snapshots,
the open execution event stream (tagged by the trace it serves), and the
in-flight request controller with its aborted flag. -/
structure HookState where
  docId : Option String
  sessions : List Session
  currentSessionId : Option String
  messages : List Message
  isLoading : Bool
  clarificationThreadBySession : String → Option String
  executionByTrace : String → Option QAExecutionSnapshot
  sse : Option String
  controllerActive : Bool
  httpAborted : Bool

/-! ## Clarification bookkeeping (useQASession.ts lines 554-571) -/

/-- Embedding of the two `setClarificationThreadBySession` updates that
`sendMessage` performs after a response arrives: a `clarification_pending`
response with a truthy `threadId` records the thread for the session; any
other status removes the session's entry when one is recorded. -/
def updateClarificationMap (m : String → Option String) (sessionId : String)
    (response : QAResponse) : String → Option String :=
  if response.status = "clarification_pending" then
    match response.clarification with
    | some c =>
        if c.threadId.isEmpty then m
        else fun s => if s = sessionId then some c.threadId else m s
    | none => m
  else
    if truthyStr (m sessionId) then
      fun s => if s = sessionId then none else m s
    else m

/-- Well-formedness of the clarification map: a recorded thread id is
never the empty string.  This holds in every reachable state because
threads are only recorded from truthy thread ids. -/
def ClarMapWF (m : String → Option String) : Prop :=
  ∀ s, m s ≠ some ""

/-! ## Execution snapshots (useQASession.ts lines 719-796) -/

/-- Embedding of `createExecutionSnapshot`. -/
def createExecutionSnapshot (traceId query : String) : QAExecutionSnapshot :=
  { traceId
    manager := { query := some query, stage1 := none, problems := some [] }
    plan := { planId := none, metadata := some [], nodes := some [], workers := some [] }
    workers := []
    summary := { fallbackUsed := some false, finalStatus := some "running", confidence := some 0 } }

/-- Object-spread merge `{ ...base, ...overlay }` on the typed plan
record: a key present (non-`undefined`) in the overlay wins. -/
def mergePlan (base overlay : PlanState) : PlanState :=
  { planId := overlay.planId.orElse fun _ => base.planId
    metadata := overlay.metadata.orElse fun _ => base.metadata
    nodes := overlay.nodes.orElse fun _ => base.nodes
    workers := overlay.workers.orElse fun _ => base.workers }

/-- The `patch` object literal built for a node event (useQASession.ts
lines 766-779).  Its twelve keys are always present in the literal (some
with value `undefined`); `output`, `attempt` and `latency_ms` never appear
in it. -/
def runPatch (event : QAExecutionEvent) (nodeId : String) : QAExecutionRun :=
  { node_id := some nodeId
    sub_problem_id := some nodeId
    capability := event.capability
    role := event.role
    agent := event.worker
    identity_prompt := event.identity_prompt
    task_prompt := event.task_prompt
    progress := event.progress
    status :=
      if event.type = "worker.started" then some "RUNNING"
      else if event.type = "worker.completed" then some "COMPLETED"
      else if event.type = "worker.failed" then some "FAILED"
      else none
    success :=
      if event.type = "worker.completed" then some true
      else if event.type = "worker.failed" then some false
      else none
    error := event.error
    artifact_preview := event.artifact_preview
    output := none
    attempt := none
    latency_ms := none }

/-- Object-spread merge `{ ...existing, ...patch }` where the patch is a
`runPatch` literal: its twelve present keys overwrite the existing run
(also with `undefined`), while `output`, `attempt` and `latency_ms` are
retained from the existing run. -/
def mergeRun (existing patch : QAExecutionRun) : QAExecutionRun :=
  { patch with
      output := existing.output
      attempt := existing.attempt
      latency_ms := existing.latency_ms }

/-- The key a worker run is matched by:
`run.node_id || run.sub_problem_id` (JS `||`, so an empty `node_id` falls
through to `sub_problem_id`). -/
def runKey (r : QAExecutionRun) : Option String :=
  match r.node_id with
  | some s => if s.isEmpty then r.sub_problem_id else some s
  | none => r.sub_problem_id

/-- Whether a run matches the event's node id. -/
def keyMatches (r : QAExecutionRun) (nodeId : String) : Bool :=
  runKey r = some nodeId

/-- The `findIndex`-then-update-or-push logic for the workers list: the
first run matching the node id is merged with the patch in place;
otherwise the patch is appended. -/
def updateWorkers (event : QAExecutionEvent) (nodeId : String) :
    List QAExecutionRun → List QAExecutionRun
  | [] => [runPatch event nodeId]
  | r :: rest =>
    if keyMatches r nodeId then mergeRun r (runPatch event nodeId) :: rest
    else r :: updateWorkers event nodeId rest

/-- Embedding of `applyExecutionEvent` (useQASession.ts lines 740-796). -/
def applyExecutionEvent (snapshot : QAExecutionSnapshot)
    (event : QAExecutionEvent) : QAExecutionSnapshot :=
  let next := snapshot
  let next :=
    if event.type = "manager.parsed" then
      { next with manager :=
          { next.manager with
              stage1 := event.stage1.orElse fun _ => next.manager.stage1
              problems := event.problems.orElse fun _ => next.manager.problems } }
    else next
  let next :=
    if event.type = "plan.created" then
      match event.plan with
      | some p => { next with plan := mergePlan next.plan p }
      | none => next
    else next
  let next :=
    match event.node_id with
    | some nid =>
        if nid.isEmpty then next
        else { next with workers := updateWorkers event nid next.workers }
    | none => next
  let next :=
    if event.type = "fallback.started" then
      { next with summary := { next.summary with fallbackUsed := some true } }
    else next
  let next :=
    if event.type = "final.ready" then
      { next with summary := { next.summary with finalStatus := some "complete" } }
    else next
  next

/-! ## `sendMessage` (useQASession.ts lines 456-626) -/

/-- The backend call issued by one `sendMessage` invocation. -/
inductive BackendRequest where
  | clarify (req : ClarifyRequest)
  | query (body : AskRequestBody)
  deriving Repr, DecidableEq

/-- The identifiers generated inside one `sendMessage` call (`generateId`
for the two messages, the fresh trace id, and the id a newly created
session would get). -/
structure SendIds where
  userMsgId : String
  pendingAssistantId : String
  traceId : String
  newSessionId : String
  deriving Repr, DecidableEq

/-- Outcome of the awaited backend call inside `sendMessage`: either a
mapped `QAResponse` or a thrown error (an `AbortError` when the request
was cancelled). -/
inductive CallOutcome where
  | success (r : QAResponse)
  | thrown (err : JsError)
  deriving Repr, DecidableEq

/-- The session-resolution prefix of `sendMessage`: reuse the current
session id when truthy, otherwise `createSession()` (which prepends a new
session, selects it and clears the message list). -/
def resolveSession (st : HookState) (ids : SendIds) (now : Nat) :
    HookState × String :=
  if truthyStr st.currentSessionId then
    (st, st.currentSessionId.getD "")
  else
    let s : Session :=
      { id := ids.newSessionId, title := "新会话", createdAt := now,
        updatedAt := now, docId := st.docId }
    ({ st with
        sessions := s :: st.sessions
        currentSessionId := some ids.newSessionId
        messages := [] },
      ids.newSessionId)

/-- Embedding of `sendMessage`, parameterised by the generated ids and the
outcome of the awaited backend call.  It returns the new hook state and
the backend request that was issued (`none` when the blank-content guard
returned early).  Progress events delivered while the call is in flight
are modelled separately by `stepFn`. -/
def sendMessage (st : HookState) (content : String) (now : Nat)
    (ids : SendIds) (outcome : CallOutcome) :
    HookState × Option BackendRequest :=
  if (jsTrim content).isEmpty then (st, none) else
  let res := resolveSession st ids now
  let st1 := res.1
  let sessionId := res.2
  let userMessage : Message :=
    { id := ids.userMsgId, role := "user", content := jsTrim content
      citations := none, timestamp := now, isStreaming := none, execution := none }
  let pendingMessage : Message :=
    { id := ids.pendingAssistantId, role := "assistant"
      content := "正在由 Manager 和 Worker 集群处理中..."
      citations := none, timestamp := now, isStreaming := some true, execution := none }
  let st2 := { st1 with
    messages := st1.messages ++ [userMessage, pendingMessage]
    isLoading := true
    sessions := st1.sessions.map fun (s : Session) =>
      if s.id = sessionId then
        { s with
            title := if s.title = "新会话" then generateTitle content else s.title
            updatedAt := now }
      else s }
  let st3 := { st2 with controllerActive := true, httpAborted := false }
  let pendingThreadId := st3.clarificationThreadBySession sessionId
  let st4 := { st3 with
    executionByTrace := fun t =>
      if t = ids.traceId then
        some (createExecutionSnapshot ids.traceId (jsTrim content))
      else st3.executionByTrace t
    sse := some ids.traceId }
  let queryRequest : BackendRequest :=
    .query (askQuestionRequest
      { query := jsTrim content
        docId := st4.docId
        sessionId := if sessionId.isEmpty then none else some sessionId
        traceId := some ids.traceId
        options := some ⟨some 12, some 8000⟩ })
  let request : BackendRequest :=
    match pendingThreadId with
    | some tid =>
        if tid.isEmpty then queryRequest
        else .clarify ⟨tid, sessionId, jsTrim content⟩
    | none => queryRequest
  match outcome with
  | .success response =>
      let clar := updateClarificationMap st4.clarificationThreadBySession sessionId response
      let finalExecution :=
        response.execution.orElse fun _ =>
          (st4.executionByTrace (jsOr response.traceId ids.traceId)).orElse fun _ =>
            st4.executionByTrace ids.traceId
      let msgs := st4.messages.map fun (msg : Message) =>
        if msg.id = ids.pendingAssistantId then
          { msg with
              content := jsOr response.answer ""
              citations := some (response.citations.map fun c => ⟨c.text, c.chunkId⟩)
              isStreaming := some false
              execution := finalExecution }
        else msg
      ({ st4 with
          messages := msgs
          clarificationThreadBySession := clar
          isLoading := false
          controllerActive := false },
        some request)
  | .thrown err =>
      if err.name = "AbortError" then
        ({ st4 with isLoading := false, controllerActive := false }, some request)
      else
        let errorMessage : Message :=
          { id := ids.pendingAssistantId, role := "assistant"
            content := "抱歉，发生了错误：" ++ jsOrOpt err.message "未知错误"
            citations := none, timestamp := now, isStreaming := none, execution := none }
        let msgs := st4.messages.map fun (msg : Message) =>
          if msg.id = ids.pendingAssistantId then errorMessage else msg
        ({ st4 with
            messages := msgs
            isLoading := false
            controllerActive := false },
          some request)

/-! ## `cancelRequest` and the event-delivery machine
(useQASession.ts lines 515-532 and 634-644) -/

/-- Embedding of `cancelRequest`: abort the in-flight controller when one
exists (clearing the loading flag), and close the execution event stream,
clearing its handle. -/
def cancelRequest (st : HookState) : HookState :=
  let st1 :=
    if st.controllerActive then
      { st with httpAborted := true, controllerActive := false, isLoading := false }
    else st
  { st1 with sse := none }

/-- One observable step of the hook, for the temporal cancellation claim:
delivery of an execution event on the open stream (the SSE `onmessage`
closure updates `executionByTraceRef` for the trace the stream serves),
a `cancelRequest` call, the stream closing on error or timeout, or a new
`sendMessage` call. -/
inductive QAStep where
  | deliver (e : QAExecutionEvent)
  | cancel
  | sseClose
  | send (content : String) (now : Nat) (ids : SendIds) (outcome : CallOutcome)

/-- The step transition function of the hook. -/
def stepFn (st : HookState) : QAStep → HookState
  | .deliver e =>
      match st.sse with
      | some t =>
          match st.executionByTrace t with
          | some snap =>
              { st with
                  executionByTrace := fun x =>
                    if x = t then some (applyExecutionEvent snap e)
                    else st.executionByTrace x }
          | none => st
      | none => st
  | .cancel => cancelRequest st
  | .sseClose => { st with sse := none }
  | .send content now ids outcome => (sendMessage st content now ids outcome).1

/-! ## `retryExecution` (useQASession.ts lines 646-698) -/

/-- Outcome of the awaited retry call. -/
inductive RetryOutcome where
  | success (r : QAResponse)
  | thrown (err : JsError)
  deriving Repr, DecidableEq

/-- The message-selection predicate of `retryExecution`:
`msg.execution?.traceId === traceId`. -/
def msgMatchesTrace (m : Message) (traceId : String) : Bool :=
  m.execution.map (·.traceId) = some traceId

/-- Embedding of the hook's `retryExecution` callback as its effect on the
message list, returning the updated list together with whether a retry
request was issued to the backend. -/
def retryExecution (messages : List Message) (traceId : String)
    (outcome : RetryOutcome) : List Message × Bool :=
  match messages.find? (fun m => msgMatchesTrace m traceId) with
  | none => (messages, false)
  | some target =>
      let msgs1 := messages.map fun m =>
        if m.id = target.id then
          { m with isStreaming := some true, content := "正在重试这次执行..." }
        else m
      match outcome with
      | .success r =>
          (msgs1.map fun m =>
            if m.id = target.id then
              { m with
                  isStreaming := some false
                  content := jsOr r.answer ""
                  citations := some (r.citations.map fun c => ⟨c.text, c.chunkId⟩)
                  execution := r.execution.orElse fun _ => m.execution }
            else m,
            true)
      | .thrown err =>
          (msgs1.map fun m =>
            if m.id = target.id then
              { m with
                  isStreaming := some false
                  content := "重试失败：" ++ jsOrOpt err.message "未知错误" }
            else m,
            true)

/-! ## Theorems -/

/-- C10: for every string content, `generateTitle` returns a non-empty
string of at most 23 characters: the whitespace-collapsed, trimmed content
itself when it is at most 20 characters long, its first 20 characters
followed by "..." when longer, and the fixed title "新会话" when the
cleaned content is empty. -/
theorem c10_generateTitle_spec (content : String) :
    generateTitle content ≠ "" ∧
    (generateTitle content).length ≤ 23 ∧
    (if (cleanContent content).length > 20 then
      generateTitle content = ⟨(cleanContent content).take 20 ++ "...".data⟩
    else if (cleanContent content).isEmpty then
      generateTitle content = "新会话"
    else
      generateTitle content = ⟨cleanContent content⟩) := by
  unfold generateTitle
  by_cases h20 : (cleanContent content).length > 20
  · have htake : ((cleanContent content).take 20).length = 20 := by
      simp [List.length_take]
      omega
    refine ⟨?_, ?_, ?_⟩
    · simp only [h20, if_true]
      intro h
      have : ((cleanContent content).take 20 ++ "...".data).length = 0 := by
        rw [show ((cleanContent content).take 20 ++ "...".data) =
              (("" : String).data) from congrArg String.data h]
        simp
      simp [htake] at this
    · simp only [h20, if_true]
      show ((cleanContent content).take 20 ++ "...".data).length ≤ 23
      simp [htake]
    · simp [h20]
  · by_cases hemp : (cleanContent content).isEmpty
    · refine ⟨?_, ?_, ?_⟩
      · simp [h20, hemp]
      · simp [h20, hemp]
        show ("新会话" : String).length ≤ 23
        decide

      · simp [h20, hemp]
    · refine ⟨?_, ?_, ?_⟩
      · simp only [h20, if_false, hemp]
        intro h
        have : cleanContent content = ("" : String).data := congrArg String.data h
        simp at this
        rw [List.isEmpty_iff] at hemp
        exact hemp this
      · simp only [h20, if_false, hemp]
        show (cleanContent content).length ≤ 23
        omega
      · simp [h20, hemp]

/-- A string whose `isEmpty` flag is false is not the empty string. -/
theorem isEmptyFalse_ne {s : String} (h : s.isEmpty = false) : s ≠ "" := by
  intro he
  rw [he] at h
  exact absurd h (by decide)

/-- A string different from the empty string has `isEmpty` false. -/
theorem ne_isEmptyFalse {s : String} (h : s ≠ "") : s.isEmpty = false := by
  cases hb : s.isEmpty
  · rfl
  · exact absurd ((String.isEmpty_iff s).mp hb) h

/-- C3: at every reachable state each session has at most one recorded
open clarification thread (the map stores at most one thread id per
session, and well-formedness — no empty thread id — is preserved): a
`clarification_pending` response carrying a threadId sets the session's
single recorded thread, overwriting any previous one; a response with any
other status deletes the session's recorded thread; and the entries of all
other sessions are unchanged by either update. -/
theorem c3_single_thread_per_session (m : String → Option String)
    (sessionId : String) (response : QAResponse) (hwf : ClarMapWF m) :
    ClarMapWF (updateClarificationMap m sessionId response) ∧
    (∀ s, s ≠ sessionId →
      updateClarificationMap m sessionId response s = m s) ∧
    (∀ c, response.status = "clarification_pending" →
      response.clarification = some c → c.threadId ≠ "" →
      updateClarificationMap m sessionId response sessionId = some c.threadId) ∧
    (response.status ≠ "clarification_pending" →
      updateClarificationMap m sessionId response sessionId = none) := by
  refine ⟨?_, ?_, ?_, ?_⟩
  · intro s
    unfold updateClarificationMap
    split
    · cases hc : response.clarification with
      | none => exact hwf s
      | some c =>
          cases hb : c.threadId.isEmpty with
          | true => simpa [hb] using hwf s
          | false =>
              have hne := isEmptyFalse_ne hb
              by_cases hs : s = sessionId
              · simp [hb, hs, hne]
              · simpa [hb, hs] using hwf s
    · split
      · by_cases hs : s = sessionId
        · simp [hs]
        · simpa [hs] using hwf s
      · exact hwf s
  · intro s hs
    unfold updateClarificationMap
    split
    · cases hc : response.clarification with
      | none => rfl
      | some c =>
          cases hb : c.threadId.isEmpty with
          | true => simp [hb]
          | false => simp [hb, hs]
    · split
      · simp [hs]
      · rfl
  · intro c hst hc hne
    unfold updateClarificationMap
    rw [hst, hc]
    simp [ne_isEmptyFalse hne]
  · intro hst
    unfold updateClarificationMap
    rw [if_neg hst]
    split
    · simp
    · rename_i ht
      cases hm : m sessionId with
      | none => rfl
      | some t =>
          exfalso
          rw [hm] at ht
          simp only [truthyStr] at ht
          have hE : t.isEmpty = true := by simpa using ht
          exact hwf sessionId (by rw [hm, (String.isEmpty_iff t).mp hE])

/-- A sample clarification-pending response used by witnesses. -/
def sampleClarResponse : QAResponse :=
  { status := "clarification_pending", answer := "which doc?", citations := []
    confidence := 0, route := "CLARIFY", traceId := "tr1", contextBlocks := []
    execution := none, sessionId := some "s1", turnId := some "t1"
    clarification := some ⟨"th1", "which doc?", []⟩ }

/-- A sample completed response used by witnesses. -/
def sampleDoneResponse : QAResponse :=
  { status := "completed", answer := "done", citations := []
    confidence := 1, route := "DOC_QA", traceId := "tr2", contextBlocks := []
    execution := none, sessionId := some "s1", turnId := some "t2"
    clarification := none }

/-- Witness for C3 at concrete inputs: recording thread "th1" for session
"s1", leaving session "s2" untouched, and a completed response deleting a
recorded thread. -/
theorem c3_single_thread_per_session_witness :
    updateClarificationMap (fun _ => none) "s1" sampleClarResponse "s1" = some "th1" ∧
    updateClarificationMap (fun _ => none) "s1" sampleClarResponse "s2" = none ∧
    updateClarificationMap (fun s => if s = "s1" then some "th1" else none) "s1"
      sampleDoneResponse "s1" = none := by
  have h1 := c3_single_thread_per_session (fun _ => none) "s1" sampleClarResponse
    (fun s => by simp)
  have h2 := c3_single_thread_per_session
    (fun s => if s = "s1" then some "th1" else none) "s1" sampleDoneResponse
    (fun s => by by_cases hs : s = "s1" <;> simp [hs])
  exact ⟨h1.2.2.1 ⟨"th1", "which doc?", []⟩ rfl rfl (by decide),
    h1.2.1 "s2" (by decide), h2.2.2.2 (by decide)⟩

/-- The fallback of `jsOrOpt` is non-empty only if the default is. -/
theorem jsOrOpt_ne_empty {x : Option String} {d : String} (hd : d ≠ "") :
    jsOrOpt x d ≠ "" := by
  cases x with
  | none => exact hd
  | some s =>
      cases hb : s.isEmpty with
      | true => simpa [jsOrOpt, jsOr, hb] using hd
      | false =>
          simp [jsOrOpt, jsOr, hb]
          exact isEmptyFalse_ne hb

/-- A raw backend reply in the clarification_pending state that carries no
thread id. -/
def rawPendingNoThread : QAV1RawResponse :=
  { status := "clarification_pending", session_id := "s1", turn_id := "t1"
    trace_id := "tr1", answer := none, confidence := none, citations := none
    intent_tag := none, stage1_result := none, stage2_result := none
    execution := none, clarification := some ⟨none, some "which one?", none⟩ }

/-- C4 counterexample: a backend reply with status "clarification_pending"
whose clarification payload has no thread_id is mapped to a response whose
clarification field is absent, so the mapped response carries no threadId
— the claim as stated fails on this input. -/
theorem c4_counterexample :
    rawPendingNoThread.status = "clarification_pending" ∧
    (mapQAV1RawResponse rawPendingNoThread).clarification = none := by
  constructor
  · rfl
  · rfl

/-- C4 (amended): for every backend reply with status
"clarification_pending" whose clarification payload carries a non-empty
thread_id, the mapped response's answer equals the clarification question,
that question is non-empty, and the clarification field carries the thread
id, the question and the options list. -/
theorem c4_clarification_mapping (raw : QAV1RawResponse)
    (c : RawClarification) (tid : String)
    (hst : raw.status = "clarification_pending")
    (hc : raw.clarification = some c)
    (htid : c.thread_id = some tid) (hne : tid ≠ "") :
    (mapQAV1RawResponse raw).answer = jsOrOpt c.question "请补充更多信息后重试。" ∧
    jsOrOpt c.question "请补充更多信息后重试。" ≠ "" ∧
    (mapQAV1RawResponse raw).clarification =
      some ⟨tid, jsOrOpt c.question "请补充更多信息后重试。", c.options.getD []⟩ := by
  have hbq : raw.clarification.bind (·.question) = c.question := by rw [hc]; rfl
  have hbt : raw.clarification.bind (·.thread_id) = some tid := by rw [hc]; exact htid
  have hbo : raw.clarification.bind (·.options) = c.options := by rw [hc]; rfl
  have htid2 : jsOrOpt (raw.clarification.bind (·.thread_id)) "" = tid := by
    rw [hbt]
    simp [jsOrOpt, jsOr, ne_isEmptyFalse hne]
  refine ⟨?_, jsOrOpt_ne_empty (by decide), ?_⟩
  · unfold mapQAV1RawResponse
    rw [hst]
    simp [hbq]
  · unfold mapQAV1RawResponse
    rw [hst]
    simp [hbq, hbo, htid2, ne_isEmptyFalse hne]

/-- Witness for the amended C4 at a concrete raw reply. -/
theorem c4_clarification_mapping_witness :
    (mapQAV1RawResponse
      { rawPendingNoThread with clarification := some ⟨some "th9", some "which one?", none⟩ }).clarification =
      some ⟨"th9", "which one?", []⟩ :=
  (c4_clarification_mapping _ ⟨some "th9", some "which one?", none⟩ "th9"
    rfl rfl rfl (by decide)).2.2

/-- C1: the request body built by askQuestion carries the query text, the
optional document scope, session id, trace id and options, and for every
non-error backend reply the mapped QAResponse has status "completed" or
"clarification_pending", citations each built from a raw citation's
source/text/score with defaults, plus confidence, route, traceId and
contextBlocks fields determined by the raw reply. -/
theorem c1_askQuestion_contract (p : AskParams) (raw : QAV1RawResponse) :
    (askQuestion p (.ok raw)).1.query = p.query ∧
    (askQuestion p (.ok raw)).1.docScope =
      (match p.docId with
       | some d => if d.isEmpty then [] else [d]
       | none => []) ∧
    (askQuestion p (.ok raw)).1.sessionId =
      (match p.sessionId with
       | some s => if s.isEmpty then none else some s
       | none => none) ∧
    (askQuestion p (.ok raw)).1.traceId =
      (match p.traceId with
       | some t => if t.isEmpty then none else some t
       | none => none) ∧
    (askQuestion p (.ok raw)).1.options = p.options ∧
    (askQuestion p (.ok raw)).2 = .ok (mapQAV1RawResponse raw) ∧
    ((mapQAV1RawResponse raw).status = "completed" ∨
      (mapQAV1RawResponse raw).status = "clarification_pending") ∧
    (mapQAV1RawResponse raw).citations =
      (raw.citations.getD []).map (fun item =>
        { chunkId := jsOrOpt item.source "unknown"
          text := jsOrOpt item.text ""
          score := item.score.getD 0 }) ∧
    (mapQAV1RawResponse raw).confidence = raw.confidence.getD (7 / 10) ∧
    (mapQAV1RawResponse raw).route =
      jsOrOpt raw.intent_tag
        (if raw.status = "clarification_pending" then "clarification_pending"
         else "DOC_QA") ∧
    (mapQAV1RawResponse raw).traceId = raw.trace_id ∧
    (mapQAV1RawResponse raw).contextBlocks =
      [⟨"stage1", raw.stage1_result.getD []⟩,
       ⟨"stage2", raw.stage2_result.getD []⟩] := by
  refine ⟨rfl, rfl, rfl, rfl, rfl, rfl, ?_, ?_, ?_, ?_, ?_, ?_⟩ <;>
    unfold mapQAV1RawResponse <;>
    by_cases hst : raw.status = "clarification_pending" <;>
    simp [hst, mapCitation]

/-- C9: applyExecutionEvent is a pure function building a fresh snapshot
(mutation-freedom is inherent in the embedding), and for every event whose
type is none of "manager.parsed", "plan.created", "fallback.started" or
"final.ready" and which carries no truthy node_id, the returned snapshot
is structurally equal to the input snapshot. -/
theorem c9_applyExecutionEvent_identity (s : QAExecutionSnapshot)
    (e : QAExecutionEvent)
    (h1 : e.type ≠ "manager.parsed") (h2 : e.type ≠ "plan.created")
    (h3 : e.type ≠ "fallback.started") (h4 : e.type ≠ "final.ready")
    (h5 : truthyStr e.node_id = false) :
    applyExecutionEvent s e = s := by
  unfold applyExecutionEvent
  simp only [if_neg h1, if_neg h2, if_neg h3, if_neg h4]
  cases hn : e.node_id with
  | none => rfl
  | some nid =>
      rw [hn] at h5
      simp only [truthyStr] at h5
      have hE : nid.isEmpty = true := by simpa using h5
      simp [hE]

/-- Witness for C9: a heartbeat-style event with no node id leaves a
concrete snapshot unchanged. -/
theorem c9_applyExecutionEvent_identity_witness :
    applyExecutionEvent (createExecutionSnapshot "tr1" "q")
      { type := "stream.parse_error", trace_id := none, traceId := none
        node_id := none, worker := none, role := none, capability := none
        identity_prompt := none, task_prompt := none, progress := none
        error := some "bad json", artifact_preview := none, plan := none
        problems := none, stage1 := none } =
      createExecutionSnapshot "tr1" "q" :=
  c9_applyExecutionEvent_identity _ _ (by decide) (by decide) (by decide)
    (by decide) rfl

/-- The first worker run matching a node id (the list analogue of the
`findIndex` lookup in `applyExecutionEvent`). -/
def findRun (ws : List QAExecutionRun) (nodeId : String) : Option QAExecutionRun :=
  ws.find? (fun r => keyMatches r nodeId)

/-- The patch built for a non-empty node id matches that node id. -/
theorem keyMatches_runPatch (e : QAExecutionEvent) {n : String}
    (hne : n.isEmpty = false) : keyMatches (runPatch e n) n = true := by
  simp [keyMatches, runKey, runPatch, hne]

/-- Merging a patch keeps the patch's key. -/
theorem keyMatches_mergeRun (r : QAExecutionRun) (e : QAExecutionEvent)
    {n : String} (hne : n.isEmpty = false) :
    keyMatches (mergeRun r (runPatch e n)) n = true := by
  simp [keyMatches, runKey, mergeRun, runPatch, hne]

/-- When no run matches the node id, the node patch is appended. -/
theorem updateWorkers_append (e : QAExecutionEvent) (n : String)
    (ws : List QAExecutionRun) (h : ∀ r ∈ ws, keyMatches r n = false) :
    updateWorkers e n ws = ws ++ [runPatch e n] := by
  induction ws with
  | nil => rfl
  | cons r rest ih =>
      have hr := h r (List.mem_cons_self r rest)
      simp only [updateWorkers, hr]
      simp only [Bool.false_eq_true, if_false, List.cons_append, List.cons.injEq,
        true_and]
      exact ih fun x hx => h x (List.mem_cons_of_mem r hx)

/-- When a run matches the node id, the first matching run is merged with
the patch in place. -/
theorem updateWorkers_inplace (e : QAExecutionEvent) (n : String)
    (pre post : List QAExecutionRun) (r : QAExecutionRun)
    (hpre : ∀ x ∈ pre, keyMatches x n = false) (hr : keyMatches r n = true) :
    updateWorkers e n (pre ++ r :: post) =
      pre ++ mergeRun r (runPatch e n) :: post := by
  induction pre with
  | nil => simp [updateWorkers, hr]
  | cons x rest ih =>
      have hx := hpre x (List.mem_cons_self x rest)
      simp only [List.cons_append, updateWorkers, hx, Bool.false_eq_true, if_false,
        List.cons.injEq, true_and]
      exact ih fun y hy => hpre y (List.mem_cons_of_mem x hy)

/-- After a node update, the run found under the node id is the patch
(fresh node) or the first matching run merged with the patch. -/
theorem findRun_updateWorkers (e : QAExecutionEvent) {n : String}
    (hne : n.isEmpty = false) (ws : List QAExecutionRun) :
    findRun (updateWorkers e n ws) n =
      some (match findRun ws n with
            | some r => mergeRun r (runPatch e n)
            | none => runPatch e n) := by
  induction ws with
  | nil => simp [findRun, updateWorkers, List.find?, keyMatches_runPatch e hne]
  | cons r rest ih =>
      cases hm : keyMatches r n with
      | true =>
          simp [findRun, updateWorkers, hm, List.find?,
            keyMatches_mergeRun r e hne]
      | false =>
          simp only [updateWorkers, hm, Bool.false_eq_true, if_false]
          simp only [findRun, List.find?, hm] at ih ⊢
          exact ih

/-- The workers list of the updated snapshot for a node event. -/
theorem applyExecutionEvent_workers (s : QAExecutionSnapshot)
    (e : QAExecutionEvent) {n : String} (hn : e.node_id = some n)
    (hne : n.isEmpty = false) :
    (applyExecutionEvent s e).workers = updateWorkers e n s.workers := by
  unfold applyExecutionEvent
  rw [hn]
  simp only [hne, Bool.false_eq_true, if_false]
  repeat' split
  all_goals rfl

/-- The plan of the updated snapshot. -/
theorem applyExecutionEvent_plan (s : QAExecutionSnapshot)
    (e : QAExecutionEvent) :
    (applyExecutionEvent s e).plan =
      (if e.type = "plan.created" then
        match e.plan with
        | some p => mergePlan s.plan p
        | none => s.plan
      else s.plan) := by
  unfold applyExecutionEvent
  repeat' split
  all_goals rfl

/-- The summary fields of the updated snapshot. -/
theorem applyExecutionEvent_summary (s : QAExecutionSnapshot)
    (e : QAExecutionEvent) :
    (applyExecutionEvent s e).summary.fallbackUsed =
      (if e.type = "fallback.started" then some true
       else s.summary.fallbackUsed) ∧
    (applyExecutionEvent s e).summary.finalStatus =
      (if e.type = "final.ready" then some "complete"
       else s.summary.finalStatus) := by
  unfold applyExecutionEvent
  constructor <;> (repeat' split) <;> rfl

/-- C5: for every execution snapshot and every progress event: a
"plan.created" event merges the event's plan into the snapshot's plan,
"fallback.started" sets summary.fallbackUsed to true, "final.ready" sets
summary.finalStatus to "complete" (each regardless of any node id); and
whenever the event carries a node id, the run recorded under that node id
after the update has status RUNNING for "worker.started", COMPLETED with
success true for "worker.completed", FAILED with success false and the
event's error for "worker.failed", with a node event for an unknown node
appending a new worker entry while one for a known node updates the first
matching entry in place. -/
theorem c5_applyExecutionEvent_spec (s : QAExecutionSnapshot)
    (e : QAExecutionEvent) :
    (applyExecutionEvent s e).plan =
      (if e.type = "plan.created" then
        match e.plan with
        | some p => mergePlan s.plan p
        | none => s.plan
      else s.plan) ∧
    (applyExecutionEvent s e).summary.fallbackUsed =
      (if e.type = "fallback.started" then some true
       else s.summary.fallbackUsed) ∧
    (applyExecutionEvent s e).summary.finalStatus =
      (if e.type = "final.ready" then some "complete"
       else s.summary.finalStatus) ∧
    (∀ n, e.node_id = some n → n ≠ "" →
      (∃ u, findRun (applyExecutionEvent s e).workers n = some u ∧
        u.status = (if e.type = "worker.started" then some "RUNNING"
          else if e.type = "worker.completed" then some "COMPLETED"
          else if e.type = "worker.failed" then some "FAILED"
          else none) ∧
        u.success = (if e.type = "worker.completed" then some true
          else if e.type = "worker.failed" then some false
          else none) ∧
        u.error = e.error) ∧
      ((∀ r ∈ s.workers, keyMatches r n = false) →
        (applyExecutionEvent s e).workers = s.workers ++ [runPatch e n]) ∧
      (∀ pre r post, s.workers = pre ++ r :: post →
        (∀ x ∈ pre, keyMatches x n = false) → keyMatches r n = true →
        (applyExecutionEvent s e).workers =
          pre ++ mergeRun r (runPatch e n) :: post)) := by
  refine ⟨applyExecutionEvent_plan s e,
    (applyExecutionEvent_summary s e).1, (applyExecutionEvent_summary s e).2,
    ?_⟩
  intro n hn hne
  have hneb : n.isEmpty = false := ne_isEmptyFalse hne
  have hw := applyExecutionEvent_workers s e hn hneb
  refine ⟨?_, ?_, ?_⟩
  · rw [hw, findRun_updateWorkers e hneb]
    cases hf : findRun s.workers n with
    | none => exact ⟨runPatch e n, rfl, rfl, rfl, rfl⟩
    | some r => exact ⟨mergeRun r (runPatch e n), rfl, rfl, rfl, rfl⟩
  · intro h
    rw [hw]
    exact updateWorkers_append e n s.workers h
  · intro pre r post hsplit hpre hr
    rw [hw, hsplit]
    exact updateWorkers_inplace e n pre post r hpre hr

/-- A sample node event used by witnesses: worker n1 failed. -/
def sampleFailEvent : QAExecutionEvent :=
  { type := "worker.failed", trace_id := some "tr1", traceId := none
    node_id := some "n1", worker := some "w1", role := none
    capability := some "retrieve", identity_prompt := none
    task_prompt := none, progress := none, error := some "timeout"
    artifact_preview := none, plan := none, problems := none, stage1 := none }

/-- A bare fallback event carrying no node id, used by the C5 witness. -/
def sampleFallbackEvent : QAExecutionEvent :=
  { type := "fallback.started", trace_id := some "tr1", traceId := none
    node_id := none, worker := none, role := none, capability := none
    identity_prompt := none, task_prompt := none, progress := none
    error := none, artifact_preview := none, plan := none, problems := none
    stage1 := none }

/-- Witness for C5: a concrete worker.failed event for a fresh node
records a FAILED run with the event's error and appends it to the (empty)
workers list, and a bare fallback.started event with no node id sets
summary.fallbackUsed to true. -/
theorem c5_applyExecutionEvent_spec_witness :
    (∃ u, findRun (applyExecutionEvent (createExecutionSnapshot "tr1" "q")
        sampleFailEvent).workers "n1" = some u ∧
      u.status = some "FAILED" ∧ u.success = some false ∧
      u.error = some "timeout") ∧
    (applyExecutionEvent (createExecutionSnapshot "tr1" "q")
        sampleFailEvent).workers = [runPatch sampleFailEvent "n1"] ∧
    (applyExecutionEvent (createExecutionSnapshot "tr1" "q")
        sampleFallbackEvent).summary.fallbackUsed = some true := by
  have h := c5_applyExecutionEvent_spec (createExecutionSnapshot "tr1" "q")
    sampleFailEvent
  have hnode := h.2.2.2 "n1" rfl (by decide)
  have hfb := (c5_applyExecutionEvent_spec (createExecutionSnapshot "tr1" "q")
    sampleFallbackEvent).2.1
  refine ⟨?_, ?_, ?_⟩
  · obtain ⟨u, hu, hst, hsu, herr⟩ := hnode.1
    exact ⟨u, hu, by simpa using hst, by simpa using hsu, herr⟩
  · have := hnode.2.1 (by intro r hr; simp [createExecutionSnapshot] at hr)
    simpa [createExecutionSnapshot] using this
  · simpa using hfb

/-- Session resolution never touches the clarification map. -/
theorem resolveSession_clarMap (st : HookState) (ids : SendIds) (now : Nat) :
    (resolveSession st ids now).1.clarificationThreadBySession =
      st.clarificationThreadBySession := by
  unfold resolveSession
  split <;> rfl

/-- Session resolution never touches the hook's document scope. -/
theorem resolveSession_docId (st : HookState) (ids : SendIds) (now : Nat) :
    (resolveSession st ids now).1.docId = st.docId := by
  unfold resolveSession
  split <;> rfl

/-- The backend request issued by `sendMessage` on non-blank content,
as a function of the recorded clarification thread of the resolved
session. -/
theorem sendMessage_request (st : HookState) (content : String) (now : Nat)
    (ids : SendIds) (outcome : CallOutcome)
    (hnb : (jsTrim content).isEmpty = false) :
    (sendMessage st content now ids outcome).2 =
      some (match st.clarificationThreadBySession (resolveSession st ids now).2 with
        | some tid =>
            if tid.isEmpty then
              BackendRequest.query (askQuestionRequest
                { query := jsTrim content
                  docId := st.docId
                  sessionId :=
                    if (resolveSession st ids now).2.isEmpty then none
                    else some (resolveSession st ids now).2
                  traceId := some ids.traceId
                  options := some ⟨some 12, some 8000⟩ })
            else BackendRequest.clarify
              ⟨tid, (resolveSession st ids now).2, jsTrim content⟩
        | none =>
            BackendRequest.query (askQuestionRequest
              { query := jsTrim content
                docId := st.docId
                sessionId :=
                  if (resolveSession st ids now).2.isEmpty then none
                  else some (resolveSession st ids now).2
                traceId := some ids.traceId
                options := some ⟨some 12, some 8000⟩ })) := by
  unfold sendMessage
  simp only [hnb, Bool.false_eq_true, if_false, resolveSession_clarMap,
    resolveSession_docId]
  cases outcome with
  | success r => rfl
  | thrown err =>
      by_cases hab : err.name = "AbortError"
      · simp [hab]
      · simp [hab]

/-- C2: for every non-blank message, when the resolved session has a
recorded open clarification thread the message is submitted as the
clarification answer of that thread (the clarification call with that
threadId, the session id, and the trimmed message text), not as a new
query; when no thread is recorded it is submitted as a new query through
the primary query call. -/
theorem c2_sendMessage_routing (st : HookState) (content : String) (now : Nat)
    (ids : SendIds) (outcome : CallOutcome)
    (hnb : jsTrim content ≠ "") :
    (∀ tid,
      st.clarificationThreadBySession (resolveSession st ids now).2 = some tid →
      tid ≠ "" →
      (sendMessage st content now ids outcome).2 =
        some (.clarify ⟨tid, (resolveSession st ids now).2, jsTrim content⟩)) ∧
    (st.clarificationThreadBySession (resolveSession st ids now).2 = none →
      (sendMessage st content now ids outcome).2 =
        some (.query (askQuestionRequest
          { query := jsTrim content
            docId := st.docId
            sessionId :=
              if (resolveSession st ids now).2.isEmpty then none
              else some (resolveSession st ids now).2
            traceId := some ids.traceId
            options := some ⟨some 12, some 8000⟩ }))) := by
  constructor
  · intro tid hm hne
    rw [sendMessage_request st content now ids outcome (ne_isEmptyFalse hnb), hm]
    simp [ne_isEmptyFalse hne]
  · intro hm
    rw [sendMessage_request st content now ids outcome (ne_isEmptyFalse hnb), hm]

/-- A hook state with a selected session "s1" and nothing else going on. -/
def emptyHookState : HookState :=
  { docId := none, sessions := [], currentSessionId := some "s1", messages := []
    isLoading := false, clarificationThreadBySession := fun _ => none
    executionByTrace := fun _ => none, sse := none, controllerActive := false
    httpAborted := false }

/-- The identifiers used by witnesses. -/
def sampleIds : SendIds :=
  { userMsgId := "m1", pendingAssistantId := "m2", traceId := "tr1"
    newSessionId := "ns1" }

/-- Witness for C2: with a recorded thread the concrete request is the
clarification call; with no recorded thread it is the primary query call. -/
theorem c2_sendMessage_routing_witness :
    (sendMessage
        { emptyHookState with
            clarificationThreadBySession := fun s => if s = "s1" then some "th1" else none }
        "hi" 0 sampleIds (.thrown ⟨"AbortError", none⟩)).2 =
      some (.clarify ⟨"th1", "s1", jsTrim "hi"⟩) ∧
    (sendMessage emptyHookState "hi" 0 sampleIds (.thrown ⟨"AbortError", none⟩)).2 =
      some (.query (askQuestionRequest
        { query := jsTrim "hi", docId := none, sessionId := some "s1"
          traceId := some "tr1", options := some ⟨some 12, some 8000⟩ })) := by
  constructor
  · exact (c2_sendMessage_routing
      { emptyHookState with
          clarificationThreadBySession := fun s => if s = "s1" then some "th1" else none }
      "hi" 0 sampleIds (.thrown ⟨"AbortError", none⟩) (by decide)).1 "th1" rfl
      (by decide)
  · exact (c2_sendMessage_routing emptyHookState "hi" 0 sampleIds
      (.thrown ⟨"AbortError", none⟩) (by decide)).2 rfl

/-- A map that fixes every element of a list leaves the list unchanged. -/
theorem map_id_of_fix {α} (f : α → α) :
    ∀ (l : List α), (∀ x ∈ l, f x = x) → l.map f = l
  | [], _ => rfl
  | x :: xs, h => by
      simp only [List.map_cons, h x (List.mem_cons_self x xs)]
      rw [map_id_of_fix f xs (fun y hy => h y (List.mem_cons_of_mem x hy))]

/-- Session resolution either keeps the message list or clears it. -/
theorem resolveSession_messages (st : HookState) (ids : SendIds) (now : Nat) :
    (resolveSession st ids now).1.messages = st.messages ∨
    (resolveSession st ids now).1.messages = [] := by
  unfold resolveSession
  split
  · exact .inl rfl
  · exact .inr rfl

/-- C6: sendMessage never propagates an exception to its caller (the
embedding is total on every call outcome): on a failure that is not a
user abort the pending assistant placeholder is replaced by a well-formed
assistant message reporting the error and the loading flag is cleared,
while on a user abort no error message is added (the message list still
ends with the user message and the untouched placeholder) and the loading
flag is cleared. -/
theorem c6_sendMessage_error_handling (st : HookState) (content : String)
    (now : Nat) (ids : SendIds) (err : JsError)
    (hnb : jsTrim content ≠ "")
    (hfresh : ∀ m ∈ st.messages, m.id ≠ ids.pendingAssistantId)
    (hdist : ids.userMsgId ≠ ids.pendingAssistantId) :
    (sendMessage st content now ids (.thrown err)).1.isLoading = false ∧
    (err.name ≠ "AbortError" →
      (sendMessage st content now ids (.thrown err)).1.messages =
        (resolveSession st ids now).1.messages ++
          [{ id := ids.userMsgId, role := "user", content := jsTrim content
             citations := none, timestamp := now, isStreaming := none
             execution := none },
           { id := ids.pendingAssistantId, role := "assistant"
             content := "抱歉，发生了错误：" ++ jsOrOpt err.message "未知错误"
             citations := none, timestamp := now, isStreaming := none
             execution := none }]) ∧
    (err.name = "AbortError" →
      (sendMessage st content now ids (.thrown err)).1.messages =
        (resolveSession st ids now).1.messages ++
          [{ id := ids.userMsgId, role := "user", content := jsTrim content
             citations := none, timestamp := now, isStreaming := none
             execution := none },
           { id := ids.pendingAssistantId, role := "assistant"
             content := "正在由 Manager 和 Worker 集群处理中..."
             citations := none, timestamp := now, isStreaming := some true
             execution := none }]) := by
  have hnbe := ne_isEmptyFalse hnb
  have hmsgs : ∀ m ∈ (resolveSession st ids now).1.messages,
      m.id ≠ ids.pendingAssistantId := by
    rcases resolveSession_messages st ids now with h | h <;> rw [h]
    · exact hfresh
    · intro m hm
      exact absurd hm (List.not_mem_nil m)
  refine ⟨?_, ?_, ?_⟩
  · unfold sendMessage
    simp only [hnbe, Bool.false_eq_true, if_false]
    by_cases hab : err.name = "AbortError" <;> simp [hab]
  · intro hab
    unfold sendMessage
    simp only [hnbe, Bool.false_eq_true, if_false, hab, if_neg, ite_false,
      if_false]
    rw [List.map_append]
    rw [map_id_of_fix _ _ (fun m hm => by
      simp only [if_neg (hmsgs m hm)])]
    simp [hdist]
  · intro hab
    unfold sendMessage
    simp only [hnbe, Bool.false_eq_true, if_false, hab]
    simp

/-- Witness for C6 at a concrete state: a network failure replaces the
placeholder with the error-reporting assistant message, and an abort
leaves the placeholder in place; the loading flag ends cleared. -/
theorem c6_sendMessage_error_handling_witness :
    (sendMessage emptyHookState "hi" 0 sampleIds
        (.thrown ⟨"TypeError", some "fetch failed"⟩)).1.isLoading = false ∧
    (sendMessage emptyHookState "hi" 0 sampleIds
        (.thrown ⟨"TypeError", some "fetch failed"⟩)).1.messages =
      [{ id := "m1", role := "user", content := jsTrim "hi"
         citations := none, timestamp := 0, isStreaming := none
         execution := none },
       { id := "m2", role := "assistant"
         content := "抱歉，发生了错误：" ++ jsOrOpt (some "fetch failed") "未知错误"
         citations := none, timestamp := 0, isStreaming := none
         execution := none }] ∧
    (sendMessage emptyHookState "hi" 0 sampleIds
        (.thrown ⟨"AbortError", none⟩)).1.messages =
      [{ id := "m1", role := "user", content := jsTrim "hi"
         citations := none, timestamp := 0, isStreaming := none
         execution := none },
       { id := "m2", role := "assistant"
         content := "正在由 Manager 和 Worker 集群处理中..."
         citations := none, timestamp := 0, isStreaming := some true
         execution := none }] := by
  have h1 := c6_sendMessage_error_handling emptyHookState "hi" 0 sampleIds
    ⟨"TypeError", some "fetch failed"⟩ (by decide)
    (fun m hm => absurd hm (List.not_mem_nil m)) (by decide)
  have h2 := c6_sendMessage_error_handling emptyHookState "hi" 0 sampleIds
    ⟨"AbortError", none⟩ (by decide)
    (fun m hm => absurd hm (List.not_mem_nil m)) (by decide)
  exact ⟨h1.1, h1.2.1 (by decide), h2.2.2 rfl⟩

/-- C8: retryExecution updates only the message whose execution snapshot
carries the given traceId — the first such message gets the retry
response's answer, citations and execution snapshot, every message with a
different id is unchanged (it reappears verbatim in the result) — and
when no message carries that traceId the message list is unchanged and no
retry request is issued. -/
theorem c8_retryExecution_frame (messages : List Message) (traceId : String)
    (outcome : RetryOutcome) :
    (messages.find? (fun m => msgMatchesTrace m traceId) = none →
      retryExecution messages traceId outcome = (messages, false)) ∧
    (∀ target r ex,
      messages.find? (fun m => msgMatchesTrace m traceId) = some target →
      outcome = .success r → r.execution = some ex →
      msgMatchesTrace target traceId = true ∧
      (retryExecution messages traceId outcome).2 = true ∧
      (retryExecution messages traceId outcome).1 =
        messages.map (fun m =>
          if m.id = target.id then
            { m with
                isStreaming := some false
                content := jsOr r.answer ""
                citations := some (r.citations.map fun c => ⟨c.text, c.chunkId⟩)
                execution := some ex }
          else m) ∧
      (∀ m ∈ messages, m.id ≠ target.id →
        m ∈ (retryExecution messages traceId outcome).1)) := by
  constructor
  · intro hnone
    unfold retryExecution
    rw [hnone]
  · intro target r ex hfind hout hex
    subst hout
    refine ⟨by simpa using List.find?_some hfind, ?_, ?_, ?_⟩
    · unfold retryExecution
      rw [hfind]
    · unfold retryExecution
      rw [hfind]
      simp only [List.map_map]
      apply List.map_congr_left
      intro m _
      by_cases hm : m.id = target.id
      · simp [Function.comp_apply, hm, hex]
      · simp [Function.comp_apply, hm]
    · intro m hm hne
      unfold retryExecution
      rw [hfind]
      simp only [List.map_map]
      have : (fun m : Message =>
          if m.id = target.id then
            { m with
                isStreaming := some false
                content := jsOr r.answer ""
                citations := some (r.citations.map fun c =>
                  (⟨c.text, c.chunkId⟩ : MsgCitation))
                execution := r.execution.orElse fun _ => m.execution }
          else m) m = m := by
        simp only [if_neg hne]
      refine List.mem_map.mpr ⟨m, hm, ?_⟩
      simp only [Function.comp_apply, if_neg hne]

/-- A message carrying a completed execution snapshot for trace tr9. -/
def sampleTracedMessage : Message :=
  { id := "mA", role := "assistant", content := "old answer"
    citations := some [], timestamp := 0, isStreaming := some false
    execution := some (createExecutionSnapshot "tr9" "q") }

/-- Witness for C8: retrying trace tr9 on a two-message list updates only
the carrying message and reports that a request was issued; retrying an
unknown trace leaves the list unchanged with no request issued. -/
theorem c8_retryExecution_frame_witness :
    (retryExecution [sampleTracedMessage] "missing"
        (.success sampleDoneResponse) = ([sampleTracedMessage], false)) ∧
    (retryExecution [sampleTracedMessage] "tr9"
        (.success { sampleDoneResponse with
          execution := some (createExecutionSnapshot "tr9" "q2") })).2 = true := by
  constructor
  · exact (c8_retryExecution_frame [sampleTracedMessage] "missing"
      (.success sampleDoneResponse)).1 (by decide)
  · exact ((c8_retryExecution_frame [sampleTracedMessage] "tr9"
      (.success { sampleDoneResponse with
        execution := some (createExecutionSnapshot "tr9" "q2") })).2
      sampleTracedMessage _ (createExecutionSnapshot "tr9" "q2")
      (by decide) rfl rfl).2.1

/-- A `sendMessage` call leaves the stream handle alone (blank content) or
points it at its own fresh trace. -/
theorem sendMessage_sse (st : HookState) (c : String) (n : Nat)
    (ids : SendIds) (o : CallOutcome) :
    (sendMessage st c n ids o).1.sse = st.sse ∨
    (sendMessage st c n ids o).1.sse = some ids.traceId := by
  unfold sendMessage
  split
  · exact .inl rfl
  · cases o with
    | success r => exact .inr rfl
    | thrown err =>
        by_cases hab : err.name = "AbortError" <;> simp [hab]

/-- A `sendMessage` call never touches the execution snapshot of a trace
other than its own. -/
theorem sendMessage_execOther (st : HookState) (c : String) (n : Nat)
    (ids : SendIds) (o : CallOutcome) (t : String) (ht : t ≠ ids.traceId) :
    (sendMessage st c n ids o).1.executionByTrace t = st.executionByTrace t := by
  have hres : (resolveSession st ids n).1.executionByTrace =
      st.executionByTrace := by
    unfold resolveSession
    split <;> rfl
  unfold sendMessage
  split
  · rfl
  · cases o with
    | success r =>
        show (if t = ids.traceId then _ else
          (resolveSession st ids n).1.executionByTrace t) = _
        rw [if_neg ht, hres]
    | thrown err =>
        by_cases hab : err.name = "AbortError"
        · simp only [hab, if_pos rfl]
          show (if t = ids.traceId then _ else
            (resolveSession st ids n).1.executionByTrace t) = _
          rw [if_neg ht, hres]
        · simp only [if_neg hab]
          show (if t = ids.traceId then _ else
            (resolveSession st ids n).1.executionByTrace t) = _
          rw [if_neg ht, hres]

/-- Stability kernel for the cancellation claim: from any state whose
stream handle does not serve trace `t`, a run of steps none of which is a
`sendMessage` reusing trace id `t` never changes the execution snapshot
recorded for `t`, and never reopens a stream for `t`. -/
theorem execStable (t : String) :
    ∀ (steps : List QAStep) (st : HookState), st.sse ≠ some t →
    (∀ s ∈ steps, ∀ c n ids o, s = QAStep.send c n ids o → ids.traceId ≠ t) →
    (steps.foldl stepFn st).executionByTrace t = st.executionByTrace t ∧
    (steps.foldl stepFn st).sse ≠ some t := by
  intro steps
  induction steps with
  | nil => exact fun st h1 _ => ⟨rfl, h1⟩
  | cons s rest ih =>
      intro st h1 h2
      have hstep : (stepFn st s).executionByTrace t = st.executionByTrace t ∧
          (stepFn st s).sse ≠ some t := by
        cases s with
        | deliver e =>
            simp only [stepFn]
            split
            · rename_i t2 hs
              split
              · rename_i snap hsnap
                have ht2 : t2 ≠ t := fun h => h1 (by rw [hs, h])
                refine ⟨?_, h1⟩
                show (if t = t2 then some (applyExecutionEvent snap e)
                  else st.executionByTrace t) = st.executionByTrace t
                rw [if_neg (fun h => ht2 h.symm)]
              · exact ⟨rfl, h1⟩
            · exact ⟨rfl, h1⟩
        | cancel =>
            simp only [stepFn, cancelRequest]
            constructor
            · split <;> rfl
            · simp
        | sseClose =>
            exact ⟨rfl, by simp [stepFn]⟩
        | send c n ids o =>
            have hne : ids.traceId ≠ t :=
              h2 _ (List.mem_cons_self _ _) c n ids o rfl
            refine ⟨sendMessage_execOther st c n ids o t (fun h => hne h.symm), ?_⟩
            rcases sendMessage_sse st c n ids o with h | h
            · rw [show stepFn st (QAStep.send c n ids o) =
                (sendMessage st c n ids o).1 from rfl, h]
              exact h1
            · rw [show stepFn st (QAStep.send c n ids o) =
                (sendMessage st c n ids o).1 from rfl, h]
              intro hcontra
              exact hne (by injection hcontra)
      have hrest := ih (stepFn st s) hstep.2
        (fun x hx => h2 x (List.mem_cons_of_mem s hx))
      rw [List.foldl_cons]
      exact ⟨hrest.1.trans hstep.1, hrest.2⟩

/-- C7: after cancelRequest runs, the in-flight request is aborted (when a
controller is active), the execution event stream handle is closed and
cleared, and the per-trace execution snapshot of the in-flight trace never
changes again across any subsequent steps — event deliveries, further
cancels, stream closures, and new sendMessage calls with fresh trace ids. -/
theorem c7_cancel_stops_events (st : HookState) (t : String)
    (steps : List QAStep) (hopen : st.sse = some t)
    (hfresh : ∀ s ∈ steps, ∀ c n ids o, s = QAStep.send c n ids o →
      ids.traceId ≠ t) :
    (stepFn st .cancel).sse = none ∧
    (st.controllerActive = true → (stepFn st .cancel).httpAborted = true) ∧
    (stepFn st .cancel).executionByTrace t = st.executionByTrace t ∧
    (steps.foldl stepFn (stepFn st .cancel)).executionByTrace t =
      st.executionByTrace t := by
  have hsse : (stepFn st .cancel).sse = none := by
    simp [stepFn, cancelRequest]
  have hexec : (stepFn st .cancel).executionByTrace t = st.executionByTrace t := by
    simp only [stepFn, cancelRequest]
    split <;> rfl
  refine ⟨hsse, ?_, hexec, ?_⟩
  · intro hca
    simp only [stepFn, cancelRequest]
    rw [if_pos hca]

  · have := execStable t steps (stepFn st .cancel) (by rw [hsse]; simp) hfresh
    exact this.1.trans hexec

/-- Witness for C7 at a concrete state: cancelling with an open stream for
trace "tr1" clears the handle, aborts the controller, and the snapshot
for "tr1" survives a subsequent event delivery and a fresh send
untouched. -/
theorem c7_cancel_stops_events_witness :
    (stepFn
        { emptyHookState with
            sse := some "tr1", controllerActive := true
            executionByTrace := fun x =>
              if x = "tr1" then some (createExecutionSnapshot "tr1" "q")
              else none }
        .cancel).sse = none ∧
    (stepFn
        { emptyHookState with
            sse := some "tr1", controllerActive := true
            executionByTrace := fun x =>
              if x = "tr1" then some (createExecutionSnapshot "tr1" "q")
              else none }
        .cancel).httpAborted = true ∧
    ([QAStep.deliver sampleFailEvent,
      QAStep.send "hello" 1 { sampleIds with traceId := "tr2" }
        (.thrown ⟨"AbortError", none⟩)].foldl stepFn
      (stepFn
        { emptyHookState with
            sse := some "tr1", controllerActive := true
            executionByTrace := fun x =>
              if x = "tr1" then some (createExecutionSnapshot "tr1" "q")
              else none }
        .cancel)).executionByTrace "tr1" =
      some (createExecutionSnapshot "tr1" "q") := by
  have h := c7_cancel_stops_events
    { emptyHookState with
        sse := some "tr1", controllerActive := true
        executionByTrace := fun x =>
          if x = "tr1" then some (createExecutionSnapshot "tr1" "q")
          else none }
    "tr1"
    [QAStep.deliver sampleFailEvent,
     QAStep.send "hello" 1 { sampleIds with traceId := "tr2" }
       (.thrown ⟨"AbortError", none⟩)]
    rfl
    (by
      intro s hs c n ids o hsend
      rw [List.mem_cons] at hs
      rcases hs with hs | hs
      · rw [hs] at hsend
        cases hsend
      · rw [List.mem_cons] at hs
        rcases hs with hs | hs
        · rw [hs] at hsend
          injection hsend with h1 h2 h3 h4
          rw [← h3]
          decide
        · exact absurd hs (List.not_mem_nil s))
  refine ⟨h.1, h.2.1 rfl, ?_⟩
  rw [h.2.2.2]
  simp

end Maelstrom
